import Mathlib

/-!
Verification development for the go-fun repository storage layer.

Shallow embedding of:
- internal/task/task.go (Task record, Priority, Validate, Update)
- the Storage interface, JSONFileStorage and InMemoryStorage
  (src/unnamed/part_000)
- the write-coalescing ConcurrentStorage wrapper and the ExportManager
  concurrent export pipeline (internal/storage/concurrent_storage.go)

Modelling conventions:
- Go time.Time instants are modelled as Nat; the zero value of time.Time
  (IsZero) is modelled as 0. Go time formatting (layouts such as
  "2006-01-02 15:04") is abstracted to decimal rendering of the abstract
  instant; no claim depends on the concrete layout.
- Go errors are strings produced by fmt.Errorf; the error kinds the spec
  names (ValidationError, NotFoundError, ...) correspond one-to-one to the
  fmt.Errorf messages in the source, so errors are modelled by the
  inductive StoreErr whose constructors carry the formatted message parts.
- File IO is modelled by the FileData inductive: the backing file is
  absent, empty, unreadable, undecodable, or holds a decoded task list.
- Goroutines and channels: the background auto-save worker of
  ConcurrentStorage is modelled as explicit transition steps (tickStep,
  workerStopStep) separate from the caller-invoked operations, so the
  asynchrony between DisableAutoSave and the final worker flush is visible
  in the model.
-/

namespace GoFun

/-- Priority from internal/task/task.go: Low, Medium, High (iota 0,1,2). -/
inductive Priority where
  | low
  | medium
  | high
deriving DecidableEq

/-- Priority.String from task.go; the enum is total so the Go default
branch ("Unknown", reachable only for out-of-range ints) is not modelled. -/
def Priority.toGoString : Priority → String
  | .low => "Low"
  | .medium => "Medium"
  | .high => "High"

/-- Numeric value of the priority as marshalled to JSON (Go Priority is an int). -/
def Priority.toNat : Priority → Nat
  | .low => 0
  | .medium => 1
  | .high => 2

/-- Task from internal/task/task.go. The Go field Priority is renamed to
priority because in Lean the field name would shadow its own type. -/
structure Task where
  ID : String
  Title : String
  Description : String
  priority : Priority
  DueDate : Nat
  Completed : Bool
  CreatedAt : Nat
  UpdatedAt : Nat
  Tags : List String
deriving DecidableEq

/-- Task.Validate from task.go: reports the first failing bound, none when
valid. Go len on a string counts bytes, hence utf8ByteSize. -/
def Task.Validate (t : Task) : Option String :=
  if t.Title = "" then some "task title cannot be empty"
  else if t.Title.utf8ByteSize > 100 then some "task title cannot exceed 100 characters"
  else if t.Description.utf8ByteSize > 500 then some "task description cannot exceed 500 characters"
  else none

/-- Task.Update from task.go: overwrites the mutable fields, stamps
UpdatedAt with the current time (passed explicitly as now), and returns
the validation outcome of the updated record. -/
def Task.update (t : Task) (title description : String) (p : Priority)
    (dueDate now : Nat) : Task × Option String :=
  let t' := { t with
    Title := title
    Description := description
    priority := p
    DueDate := dueDate
    UpdatedAt := now }
  (t', t'.Validate)

/-- Error kinds of the storage layer; each constructor stands for one
fmt.Errorf message family in the source. -/
inductive StoreErr where
  | validation (msg : String)
  | notFound (id : String)
  | duplicate (id : String)
  | io (msg : String)
  | decode (msg : String)
deriving DecidableEq

instance {ε α : Type} [DecidableEq ε] [DecidableEq α] : DecidableEq (Except ε α) :=
  fun x y =>
    match x, y with
    | .ok a, .ok b => decidable_of_iff (a = b) (by simp)
    | .ok _, .error _ => isFalse (by simp)
    | .error _, .ok _ => isFalse (by simp)
    | .error e, .error f => decidable_of_iff (e = f) (by simp)

/-- Rendering of a StoreErr back to the Go error message it models. -/
def StoreErr.message : StoreErr → String
  | .validation m => "invalid task: " ++ m
  | .notFound id => "task with ID " ++ id ++ " not found"
  | .duplicate id => "task with ID " ++ id ++ " already exists"
  | .io m => m
  | .decode m => m

/-- First task in the list whose ID field equals id; this is the lookup
order of every find-by-id loop in the source. -/
def lookupById : List Task → String → Option Task
  | [], _ => none
  | x :: xs, id => if x.ID = id then some x else lookupById xs id

/-- Last task in the list whose ID field equals id; this is the value a Go
map keyed by ID holds after inserting the list front to back, as
mergeTasks does. -/
def lookupLast : List Task → String → Option Task
  | [], _ => none
  | x :: xs, id =>
    match lookupLast xs id with
    | some t => some t
    | none => if x.ID = id then some x else none

/-- In-place replace of the first entry sharing the ID of t, else append:
the loop body of ConcurrentStorage.QueueTaskForSave. -/
def upsert : List Task → Task → List Task
  | [], t => [t]
  | x :: xs, t => if x.ID = t.ID then t :: xs else x :: upsert xs t

/-- ConcurrentStorage.mergeTasks from concurrent_storage.go: build a map
keyed by ID from current (later duplicates win, as Go map insertion does),
then overwrite/insert every unsaved task. The Go code returns the map
values in nondeterministic order; the model keeps first-insertion order,
which is equal as a keyed mapping. -/
def mergeTasks (current unsaved : List Task) : List Task :=
  List.foldl upsert (List.foldl upsert [] current) unsaved

theorem lookupById_mem {l : List Task} {id : String} {t : Task}
    (h : lookupById l id = some t) : t ∈ l ∧ t.ID = id := by
  induction l with
  | nil => simp [lookupById] at h
  | cons x xs ih =>
    simp only [lookupById] at h
    by_cases hx : x.ID = id
    · simp [hx] at h
      exact ⟨by simp [← h], by rw [← h]; exact hx⟩
    · simp [hx] at h
      rcases ih h with ⟨h1, h2⟩
      exact ⟨List.mem_cons_of_mem _ h1, h2⟩

theorem lookupLast_mem {l : List Task} {id : String} {t : Task}
    (h : lookupLast l id = some t) : t ∈ l ∧ t.ID = id := by
  induction l with
  | nil => simp [lookupLast] at h
  | cons x xs ih =>
    simp only [lookupLast] at h
    cases hxs : lookupLast xs id with
    | some u =>
      rw [hxs] at h
      cases h
      rcases ih hxs with ⟨h1, h2⟩
      exact ⟨List.mem_cons_of_mem _ h1, h2⟩
    | none =>
      rw [hxs] at h
      by_cases hx : x.ID = id
      · simp [hx] at h
        exact ⟨by simp [← h], by rw [← h]; exact hx⟩
      · simp [hx] at h

theorem lookupById_upsert (l : List Task) (t : Task) (id : String) :
    lookupById (upsert l t) id = if t.ID = id then some t else lookupById l id := by
  induction l with
  | nil => simp [upsert, lookupById]
  | cons x xs ih =>
    by_cases hx : x.ID = t.ID
    · simp only [upsert, hx, if_pos]
      by_cases hid : t.ID = id
      · simp [lookupById, hid]
      · have hxid : ¬ x.ID = id := by rw [hx]; exact hid
        simp [lookupById, hid, hxid]
    · simp only [upsert, hx, if_neg, not_false_iff]
      by_cases hid : t.ID = id
      · have hxid : ¬ x.ID = id := by
          intro hcon
          exact hx (by rw [hcon, hid])
        simp [lookupById, hxid, ih, hid]
      · simp only [lookupById]
        by_cases hxid : x.ID = id
        · simp [hxid, hid]
        · simp [hxid, ih, hid]

theorem lookupById_foldl_upsert (ts : List Task) (acc : List Task) (id : String) :
    lookupById (List.foldl upsert acc ts) id =
      match lookupLast ts id with
      | some t => some t
      | none => lookupById acc id := by
  induction ts generalizing acc with
  | nil => simp [lookupLast]
  | cons x xs ih =>
    simp only [List.foldl_cons, lookupLast]
    rw [ih]
    cases hxs : lookupLast xs id with
    | some t => simp
    | none =>
      simp only [lookupById_upsert]
      by_cases hx : x.ID = id
      · simp [hx]
      · simp [hx]

theorem lookupById_mergeTasks (current unsaved : List Task) (id : String) :
    lookupById (mergeTasks current unsaved) id =
      match lookupLast unsaved id with
      | some t => some t
      | none => lookupLast current id := by
  unfold mergeTasks
  rw [lookupById_foldl_upsert]
  cases lookupLast unsaved id with
  | some t => simp
  | none =>
    simp only
    rw [lookupById_foldl_upsert]
    cases lookupLast current id with
    | some t => simp
    | none => simp [lookupById]

/-- The pending buffer never holds two records with the same ID; the
wrapper maintains this because QueueTaskForSave upserts by ID. -/
def IdsNodup (l : List Task) : Prop :=
  (l.map Task.ID).Nodup

instance (l : List Task) : Decidable (IdsNodup l) :=
  inferInstanceAs (Decidable ((l.map Task.ID).Nodup))

theorem lookupById_eq_lookupLast {l : List Task} (h : IdsNodup l) (id : String) :
    lookupById l id = lookupLast l id := by
  induction l with
  | nil => rfl
  | cons x xs ih =>
    rcases List.nodup_cons.mp h with ⟨hx, hxs⟩
    simp only [lookupById, lookupLast]
    by_cases hid : x.ID = id
    · simp only [hid, if_pos]
      cases hlast : lookupLast xs id with
      | some u =>
        exfalso
        rcases lookupLast_mem hlast with ⟨hmem, huid⟩
        exact hx (by rw [hid, ← huid]; exact List.mem_map_of_mem Task.ID hmem)
      | none => simp [hid]
    · simp only [hid, if_neg, not_false_iff]
      rw [ih hxs]
      cases lookupLast xs id with
      | some u => simp
      | none => simp [hid]

/-- The find-and-replace loop shared by JSONFileStorage.Update and
InMemoryStorage.Update: at the first entry whose ID equals id, store the
input record with CreatedAt preserved from the existing entry and ID
forced to id; none when no entry matches. -/
def updateList (id : String) (t : Task) : List Task → Option (List Task)
  | [] => none
  | x :: xs =>
    if x.ID = id then some ({ t with CreatedAt := x.CreatedAt, ID := id } :: xs)
    else (updateList id t xs).map (fun l => x :: l)

/-- The find-and-remove loop shared by both Delete implementations. -/
def deleteList (id : String) : List Task → Option (List Task)
  | [] => none
  | x :: xs =>
    if x.ID = id then some xs
    else (deleteList id xs).map (fun l => x :: l)

namespace InMemory

/-- InMemoryStorage.Load: returns (a copy of) the held list. -/
def Load (s : List Task) : Except StoreErr (List Task) :=
  .ok s

/-- InMemoryStorage.Save: replaces the held list. -/
def Save (ts : List Task) (_s : List Task) : List Task × Except StoreErr Unit :=
  (ts, .ok ())

/-- InMemoryStorage.Add: validate, reject duplicate IDs, append. -/
def Add (t : Task) (s : List Task) : List Task × Except StoreErr Unit :=
  match t.Validate with
  | some m => (s, .error (.validation m))
  | none =>
    if s.any (fun x => x.ID = t.ID) then (s, .error (.duplicate t.ID))
    else (s ++ [t], .ok ())

/-- InMemoryStorage.Update: validate, then replace the first entry with
matching ID, preserving its CreatedAt and forcing the stored ID to id. -/
def Update (id : String) (t : Task) (s : List Task) : List Task × Except StoreErr Unit :=
  match t.Validate with
  | some m => (s, .error (.validation m))
  | none =>
    match updateList id t s with
    | some s' => (s', .ok ())
    | none => (s, .error (.notFound id))

/-- InMemoryStorage.Delete: remove the first entry with matching ID. -/
def Delete (id : String) (s : List Task) : List Task × Except StoreErr Unit :=
  match deleteList id s with
  | some s' => (s', .ok ())
  | none => (s, .error (.notFound id))

/-- InMemoryStorage.GetByID: first entry with matching ID. -/
def GetByID (id : String) (s : List Task) : Except StoreErr Task :=
  match lookupById s id with
  | some t => .ok t
  | none => .error (.notFound id)

end InMemory

/-- Decoded content of the backing file of a JSONFileStorage. The model
works at the level of the decode outcome: absent and empty files load as
the empty collection (the source special-cases both), an unreadable file
is a read error, an undecodable file a JSON unmarshal error. -/
inductive FileData where
  | absent
  | empty
  | unreadable (msg : String)
  | corrupt (msg : String)
  | stored (tasks : List Task)
deriving DecidableEq

namespace JSONFile

/-- JSONFileStorage.Load: missing file and zero-length file both load as
the empty collection; read and decode failures are errors. -/
def Load : FileData → Except StoreErr (List Task)
  | .absent => .ok []
  | .empty => .ok []
  | .unreadable m => .error (.io ("failed to read file: " ++ m))
  | .corrupt m => .error (.decode ("failed to unmarshal JSON: " ++ m))
  | .stored ts => .ok ts

/-- JSONFileStorage.Save: marshal the list and atomically replace the
file. Write/rename IO failures are outside this model (no claim concerns
them); the saved state always decodes back to the saved list. -/
def Save (ts : List Task) (_fd : FileData) : FileData × Except StoreErr Unit :=
  (.stored ts, .ok ())

/-- JSONFileStorage.Update: load, validate, replace the first matching
entry (CreatedAt preserved, ID forced to id), then save the whole list.
The Go code wraps a failing load as "failed to load tasks: ..."; the model
keeps the inner error kind. -/
def Update (id : String) (t : Task) (fd : FileData) : FileData × Except StoreErr Unit :=
  match Load fd with
  | .error e => (fd, .error e)
  | .ok tasks =>
    match t.Validate with
    | some m => (fd, .error (.validation m))
    | none =>
      match updateList id t tasks with
      | some tasks' => Save tasks' fd
      | none => (fd, .error (.notFound id))

/-- JSONFileStorage.Add: load, validate, reject duplicates, append, save. -/
def Add (t : Task) (fd : FileData) : FileData × Except StoreErr Unit :=
  match Load fd with
  | .error e => (fd, .error e)
  | .ok tasks =>
    match t.Validate with
    | some m => (fd, .error (.validation m))
    | none =>
      if tasks.any (fun x => x.ID = t.ID) then (fd, .error (.duplicate t.ID))
      else Save (tasks ++ [t]) fd

/-- JSONFileStorage.GetByID: load, then first entry with matching ID. -/
def GetByID (id : String) (fd : FileData) : Except StoreErr Task :=
  match Load fd with
  | .error e => .error e
  | .ok tasks =>
    match lookupById tasks id with
    | some t => .ok t
    | none => .error (.notFound id)

end JSONFile

theorem updateList_none_iff (id : String) (t : Task) (s : List Task) :
    updateList id t s = none ↔ lookupById s id = none := by
  induction s with
  | nil => simp [updateList, lookupById]
  | cons x xs ih =>
    by_cases hx : x.ID = id
    · simp [updateList, lookupById, hx]
    · simp [updateList, lookupById, hx, ih]

theorem updateList_some (id : String) (t : Task) {s : List Task} {old : Task}
    (h : lookupById s id = some old) :
    ∃ s', updateList id t s = some s' ∧
      lookupById s' id = some { t with CreatedAt := old.CreatedAt, ID := id } ∧
      (∀ i, i ≠ id → lookupById s' i = lookupById s i) := by
  induction s with
  | nil => simp [lookupById] at h
  | cons x xs ih =>
    by_cases hx : x.ID = id
    · simp only [lookupById, hx, if_pos] at h
      cases h
      refine ⟨{ t with CreatedAt := old.CreatedAt, ID := id } :: xs, ?_, ?_, ?_⟩
      · simp [updateList, hx]
      · simp [lookupById]
      · intro i hi
        simp [lookupById, hi.symm, hx]
    · simp only [lookupById, hx, if_neg, not_false_iff] at h
      rcases ih h with ⟨s'', hup, hlook, hframe⟩
      refine ⟨x :: s'', ?_, ?_, ?_⟩
      · simp [updateList, hx, hup]
      · simp [lookupById, hx, hlook]
      · intro i hi
        by_cases hxi : x.ID = i
        · simp [lookupById, hxi]
        · simp [lookupById, hxi, hframe i hi]

/-- The Storage interface from src/unnamed/part_000, over an explicit
state type sigma. Stateful operations return the new store state together
with the Go return value; Delete is omitted because no claim concerns it
at this level. -/
structure StoreOps (σ : Type) where
  load : σ → Except StoreErr (List Task)
  save : List Task → σ → σ × Except StoreErr Unit
  add : Task → σ → σ × Except StoreErr Unit
  update : String → Task → σ → σ × Except StoreErr Unit
  getByID : String → σ → Except StoreErr Task

/-- InMemoryStorage packaged as a StoreOps instance. -/
def inMemOps : StoreOps (List Task) where
  load := InMemory.Load
  save := InMemory.Save
  add := InMemory.Add
  update := InMemory.Update
  getByID := InMemory.GetByID

/-- A stand-in for an arbitrary Storage implementation whose Load and Save
calls can fail (as the file-backed store can); used to instantiate the
generic wrapper theorems at failure scenarios. -/
structure FlakyStore where
  tasks : List Task
  loadFails : Bool
  saveFails : Bool
deriving DecidableEq

/-- Store operations of the FlakyStore test double. -/
def flakyOps : StoreOps FlakyStore where
  load := fun s => if s.loadFails then .error (.io "read failed") else .ok s.tasks
  save := fun ts s =>
    if s.saveFails then (s, .error (.io "write failed"))
    else ({ s with tasks := ts }, .ok ())
  add := fun t s =>
    if s.loadFails then (s, .error (.io "read failed"))
    else
      let (l, r) := InMemory.Add t s.tasks
      ({ s with tasks := l }, r)
  update := fun id t s =>
    if s.loadFails then (s, .error (.io "read failed"))
    else
      let (l, r) := InMemory.Update id t s.tasks
      ({ s with tasks := l }, r)
  getByID := fun id s =>
    if s.loadFails then .error (.io "read failed") else InMemory.GetByID id s.tasks

/-- ConcurrentStorage from concurrent_storage.go. The sync.Mutex fields
disappear in the sequential model; the time.Ticker and the autoSaveStop
channel are modelled by workerRunning (a worker goroutine is alive) and
stopClosed (the stop channel has been closed). panicked records the Go
runtime panic that closing an already-closed channel raises. -/
structure ConcurrentStorage (σ : Type) where
  storage : σ
  autoSaveEnabled : Bool
  stopClosed : Bool
  workerRunning : Bool
  panicked : Bool
  unsavedTasks : List Task
deriving DecidableEq

/-- NewConcurrentStorage: wraps a store; auto-save starts disabled and the
pending buffer empty. -/
def newConcurrentStorage {σ : Type} (s : σ) : ConcurrentStorage σ where
  storage := s
  autoSaveEnabled := false
  stopClosed := false
  workerRunning := false
  panicked := false
  unsavedTasks := []

namespace CS

variable {σ : Type}

/-- ConcurrentStorage.EnableAutoSave: no-op while already enabled;
otherwise sets the flag, starts the ticker (interval not modelled) and
spawns the worker goroutine. -/
def EnableAutoSave (cs : ConcurrentStorage σ) : ConcurrentStorage σ :=
  if cs.autoSaveEnabled then cs
  else { cs with autoSaveEnabled := true, workerRunning := true }

/-- ConcurrentStorage.DisableAutoSave: no-op while already disabled;
otherwise clears the flag, stops the ticker and closes the stop channel.
Closing a channel closed by an earlier enable/disable cycle panics. The
final flush is NOT performed here: it happens in the worker goroutine
(workerStopStep) when it observes the closed channel. -/
def DisableAutoSave (cs : ConcurrentStorage σ) : ConcurrentStorage σ :=
  if !cs.autoSaveEnabled then cs
  else if cs.stopClosed then { cs with autoSaveEnabled := false, panicked := true }
  else { cs with autoSaveEnabled := false, stopClosed := true }

/-- ConcurrentStorage.mergeTasks is the top-level mergeTasks; this is the
flush body saveUnsavedTasks: empty buffer is a no-op; a failed underlying
load degrades to saving only the pending records and clearing the buffer
unconditionally; otherwise the merged collection is saved and the buffer
cleared exactly when that save succeeds. -/
def saveUnsavedTasks (M : StoreOps σ) (cs : ConcurrentStorage σ) : ConcurrentStorage σ :=
  match cs.unsavedTasks with
  | [] => cs
  | _ :: _ =>
    match M.load cs.storage with
    | .error _ =>
      { cs with storage := (M.save cs.unsavedTasks cs.storage).1, unsavedTasks := [] }
    | .ok currentTasks =>
      let res := M.save (mergeTasks currentTasks cs.unsavedTasks) cs.storage
      match res.2 with
      | .ok _ => { cs with storage := res.1, unsavedTasks := [] }
      | .error _ => { cs with storage := res.1 }

/-- One tick of the autoSaveWorker select loop: a live worker whose ticker
is running flushes the pending buffer. -/
def tickStep (M : StoreOps σ) (cs : ConcurrentStorage σ) : ConcurrentStorage σ :=
  if cs.workerRunning && cs.autoSaveEnabled then saveUnsavedTasks M cs else cs

/-- The autoSaveWorker branch taken when the stop channel is closed: one
final flush, then the goroutine returns. -/
def workerStopStep (M : StoreOps σ) (cs : ConcurrentStorage σ) : ConcurrentStorage σ :=
  if cs.workerRunning && cs.stopClosed then
    { saveUnsavedTasks M cs with workerRunning := false }
  else cs

/-- ConcurrentStorage.QueueTaskForSave: while enabled, upsert the record
into the pending buffer keyed by its own ID; otherwise do nothing. -/
def QueueTaskForSave (t : Task) (cs : ConcurrentStorage σ) : ConcurrentStorage σ :=
  if cs.autoSaveEnabled then { cs with unsavedTasks := upsert cs.unsavedTasks t }
  else cs

/-- ConcurrentStorage.Load: read the underlying store; a nonempty pending
buffer is merged over the result (pending wins by ID). -/
def Load (M : StoreOps σ) (cs : ConcurrentStorage σ) : Except StoreErr (List Task) :=
  match M.load cs.storage with
  | .error e => .error e
  | .ok tasks =>
    match cs.unsavedTasks with
    | [] => .ok tasks
    | _ :: _ => .ok (mergeTasks tasks cs.unsavedTasks)

/-- ConcurrentStorage.Save: clear the pending buffer (a full save
supersedes it), then delegate to the underlying store. -/
def Save (M : StoreOps σ) (ts : List Task) (cs : ConcurrentStorage σ) :
    ConcurrentStorage σ × Except StoreErr Unit :=
  let res := M.save ts cs.storage
  ({ cs with storage := res.1, unsavedTasks := [] }, res.2)

/-- ConcurrentStorage.Add: while enabled, queue only; otherwise delegate. -/
def Add (M : StoreOps σ) (t : Task) (cs : ConcurrentStorage σ) :
    ConcurrentStorage σ × Except StoreErr Unit :=
  if cs.autoSaveEnabled then (QueueTaskForSave t cs, .ok ())
  else
    let res := M.add t cs.storage
    ({ cs with storage := res.1 }, res.2)

/-- ConcurrentStorage.Update: while enabled, queue only (keyed by the
record ID, the id argument is unused and no validation runs); otherwise
delegate. -/
def Update (M : StoreOps σ) (id : String) (t : Task) (cs : ConcurrentStorage σ) :
    ConcurrentStorage σ × Except StoreErr Unit :=
  if cs.autoSaveEnabled then (QueueTaskForSave t cs, .ok ())
  else
    let res := M.update id t cs.storage
    ({ cs with storage := res.1 }, res.2)

/-- ConcurrentStorage.GetByID: pending buffer first (first match), then
the underlying store. -/
def GetByID (M : StoreOps σ) (id : String) (cs : ConcurrentStorage σ) :
    Except StoreErr Task :=
  match lookupById cs.unsavedTasks id with
  | some t => .ok t
  | none => M.getByID id cs.storage

end CS

/-- A mutation issued against the wrapper: an Add call or an Update call. -/
inductive WOp where
  | add (t : Task)
  | upd (id : String) (t : Task)

/-- The record a wrapper mutation carries. -/
def WOp.record : WOp → Task
  | .add t => t
  | .upd _ t => t

/-- State of the wrapper after one mutation (the returned error is
dropped; while auto-save is enabled both calls always succeed). -/
def applyWOp {σ : Type} (M : StoreOps σ) (cs : ConcurrentStorage σ) : WOp → ConcurrentStorage σ
  | .add t => (CS.Add M t cs).1
  | .upd id t => (CS.Update M id t cs).1

/-- State of the wrapper after a sequence of mutations. -/
def applyOps {σ : Type} (M : StoreOps σ) (cs : ConcurrentStorage σ) (ops : List WOp) :
    ConcurrentStorage σ :=
  ops.foldl (applyWOp M) cs

/-- Records carried by a sequence of mutations, in issue order. -/
def writesOf (ops : List WOp) : List Task :=
  ops.map WOp.record

theorem applyOps_enabled {σ : Type} (M : StoreOps σ) (ops : List WOp) :
    ∀ cs : ConcurrentStorage σ, cs.autoSaveEnabled = true →
      applyOps M cs ops =
        { cs with unsavedTasks := List.foldl upsert cs.unsavedTasks (writesOf ops) } := by
  induction ops with
  | nil => intro cs h; simp [applyOps, writesOf]
  | cons op ops ih =>
    intro cs h
    have hstep : applyWOp M cs op =
        { cs with unsavedTasks := upsert cs.unsavedTasks op.record } := by
      cases op with
      | add t => simp [applyWOp, CS.Add, CS.QueueTaskForSave, h, WOp.record]
      | upd id t => simp [applyWOp, CS.Update, CS.QueueTaskForSave, h, WOp.record]
    have henabled : (applyWOp M cs op).autoSaveEnabled = true := by
      rw [hstep]; exact h
    calc applyOps M cs (op :: ops)
        = applyOps M (applyWOp M cs op) ops := by simp [applyOps]
      _ = { applyWOp M cs op with
              unsavedTasks :=
                List.foldl upsert (applyWOp M cs op).unsavedTasks (writesOf ops) } :=
          ih _ henabled
      _ = { cs with unsavedTasks := List.foldl upsert cs.unsavedTasks (writesOf (op :: ops)) } := by
          rw [hstep]; simp [writesOf]

/-- Abstraction of Go time formatting ("2006-01-02 15:04" and friends):
the abstract instant rendered in decimal. Distinct instants render
distinctly; the concrete layout is not modelled. -/
def goFormatTime (n : Nat) : String :=
  toString n

/-- Go strings.ToLower, character by character. -/
def strToLower (s : String) : String :=
  String.mk (s.data.map Char.toLower)

/-- Go strings.ReplaceAll(s, ",", ";") as used by the CSV renderer; for a
single-character pattern ReplaceAll is exactly a character map. -/
def replaceCommas (s : String) : String :=
  String.mk (s.data.map (fun c => if c = ',' then ';' else c))

/-- JSON string literal; escaping of special characters inside the payload
is not modelled (no claim exercises it). -/
def jsonString (s : String) : String :=
  "\"" ++ s ++ "\""

/-- Go fmt %t rendering of a bool. -/
def goBool (b : Bool) : String :=
  if b then "true" else "false"

/-- One element of the array produced by json.MarshalIndent(tasks, "", "  ")
in ExportManager.exportJSON, following the json struct tags of Task: tags
is omitempty, due_date is not (the zero time marshals like any instant). -/
def taskToJSON (t : Task) : String :=
  "  \x7b\n"
  ++ "    \"id\": " ++ jsonString t.ID ++ ",\n"
  ++ "    \"title\": " ++ jsonString t.Title ++ ",\n"
  ++ "    \"description\": " ++ jsonString t.Description ++ ",\n"
  ++ "    \"priority\": " ++ toString t.priority.toNat ++ ",\n"
  ++ "    \"due_date\": " ++ jsonString (goFormatTime t.DueDate) ++ ",\n"
  ++ "    \"completed\": " ++ goBool t.Completed ++ ",\n"
  ++ "    \"created_at\": " ++ jsonString (goFormatTime t.CreatedAt) ++ ",\n"
  ++ "    \"updated_at\": " ++ jsonString (goFormatTime t.UpdatedAt)
  ++ (match t.Tags with
      | [] => ""
      | tags => ",\n    \"tags\": [" ++ String.intercalate ", " (tags.map jsonString) ++ "]")
  ++ "\n  \x7d"

/-- Content written by ExportManager.exportJSON. -/
def renderJSON (tasks : List Task) : String :=
  match tasks with
  | [] => "[]"
  | _ :: _ => "[\n" ++ String.intercalate ",\n" (tasks.map taskToJSON) ++ "\n]"

/-- One data row of ExportManager.exportCSV: commas in free-text fields
are replaced by semicolons, an unset due date renders empty. -/
def csvRow (t : Task) : String :=
  t.ID ++ ","
  ++ replaceCommas t.Title ++ ","
  ++ replaceCommas t.Description ++ ","
  ++ t.priority.toGoString ++ ","
  ++ goBool t.Completed ++ ","
  ++ (if t.DueDate = 0 then "" else goFormatTime t.DueDate) ++ ","
  ++ goFormatTime t.CreatedAt ++ ","
  ++ goFormatTime t.UpdatedAt ++ "\n"

/-- Content written by ExportManager.exportCSV: header row then one row
per record, in collection order. -/
def renderCSV (tasks : List Task) : String :=
  "ID,Title,Description,Priority,Completed,Due Date,Created,Updated\n"
  ++ String.join (tasks.map csvRow)

/-- One task block of ExportManager.writeMarkdownTask. -/
def markdownTask (t : Task) : String :=
  (if t.Completed then "### ✅ " else "### ❌ ")
  ++ (match t.priority with
      | .high => "🔴"
      | .medium => "🟡"
      | .low => "🟢")
  ++ " " ++ t.Title ++ "\n\n"
  ++ (if t.Description = "" then "" else "**Description:** " ++ t.Description ++ "\n\n")
  ++ (if t.DueDate = 0 then "" else "**Due:** " ++ goFormatTime t.DueDate ++ "\n\n")
  ++ "**ID:** `" ++ t.ID ++ "`  \n"
  ++ "**Created:** " ++ goFormatTime t.CreatedAt ++ "  \n"
  ++ (if t.CreatedAt < t.UpdatedAt then "**Updated:** " ++ goFormatTime t.UpdatedAt ++ "  \n" else "")
  ++ "\n"

/-- Content written by ExportManager.exportMarkdown: generated-on stamp,
pending section then completed section, each omitted when empty. -/
def renderMarkdown (now : Nat) (tasks : List Task) : String :=
  let pending := tasks.filter (fun t => !t.Completed)
  let completed := tasks.filter (fun t => t.Completed)
  "# Task Export\n\n"
  ++ "Generated on: " ++ goFormatTime now ++ "\n\n"
  ++ (if pending.length > 0 then
        "## Pending Tasks (" ++ toString pending.length ++ ")\n\n"
        ++ String.join (pending.map markdownTask) ++ "\n"
      else "")
  ++ (if completed.length > 0 then
        "## Completed Tasks (" ++ toString completed.length ++ ")\n\n"
        ++ String.join (completed.map markdownTask)
      else "")

/-- ExportManager.exportFormat: dispatch on the lowercased format token;
an unknown token is a per-format error and writes nothing. On success the
result is the content written to the output file of this format. now is
the wall-clock instant the markdown renderer stamps. -/
def exportFormat (tasks : List Task) (now : Nat) (format : String) : Except String String :=
  match strToLower format with
  | "json" => .ok (renderJSON tasks)
  | "csv" => .ok (renderCSV tasks)
  | "markdown" => .ok (renderMarkdown now tasks)
  | "md" => .ok (renderMarkdown now tasks)
  | _ => .error ("unsupported format: " ++ format)

/-- ExportManager.ConcurrentExport, observed through the files it writes
and the error it returns. loadRes is the outcome of the single snapshot
Load. One renderer goroutine runs per requested format; each writes
baseFilename.format on success. The fan-in collects per-format errors and
joins them into one combined error; the model fixes the nondeterministic
channel arrival order to request order (every claim stated about the
result is insensitive to that order). -/
def concurrentExport (loadRes : Except StoreErr (List Task)) (now : Nat)
    (formats : List String) (base : String) :
    List (String × String) × Option String :=
  match formats with
  | [] => ([], some "no formats specified")
  | _ :: _ =>
    match loadRes with
    | .error e => ([], some ("failed to load tasks: " ++ e.message))
    | .ok tasks =>
      let files := formats.filterMap (fun f =>
        match exportFormat tasks now f with
        | .ok content => some (base ++ "." ++ f, content)
        | .error _ => none)
      let errs := formats.filterMap (fun f =>
        match exportFormat tasks now f with
        | .error e => some (f ++ ": " ++ e)
        | .ok _ => none)
      (files,
        match errs with
        | [] => none
        | _ :: _ => some ("export errors: " ++ String.intercalate "; " errs))

/-- Whether the first list occurs at the start of the second. -/
def startsWithList : List Char → List Char → Bool
  | [], _ => true
  | _ :: _, [] => false
  | a :: as, b :: bs => a = b && startsWithList as bs

/-- Whether needle occurs contiguously anywhere in hay. -/
def containsSub (needle : List Char) : List Char → Bool
  | [] => startsWithList needle []
  | c :: rest => startsWithList needle (c :: rest) || containsSub needle rest

/-- Whether the needle string occurs as a substring of hay. -/
def mentionsStr (needle hay : String) : Bool :=
  containsSub needle.toList hay.toList

/-- A valid sample record. -/
def tA : Task where
  ID := "a1"
  Title := "Alpha"
  Description := "first"
  priority := .high
  DueDate := 0
  Completed := false
  CreatedAt := 1
  UpdatedAt := 2
  Tags := []

/-- A second valid sample record, completed and tagged. -/
def tB : Task where
  ID := "b2"
  Title := "Beta"
  Description := "second, with comma"
  priority := .low
  DueDate := 7
  Completed := true
  CreatedAt := 3
  UpdatedAt := 3
  Tags := ["work"]

/-- An invalid sample record: its empty title fails Task.Validate. -/
def tBad : Task where
  ID := "bad1"
  Title := ""
  Description := "no title"
  priority := .medium
  DueDate := 0
  Completed := false
  CreatedAt := 4
  UpdatedAt := 4
  Tags := []

/-- A wrapper over the in-memory store holding tA, with auto-save enabled. -/
def csEnabled : ConcurrentStorage (List Task) :=
  CS.EnableAutoSave (newConcurrentStorage [tA])

/-- C7: Load on the file-backed store returns the empty collection
(success, not an error) when the backing file does not exist (or is a
zero-length file); a read failure on an existing file surfaces as an IO
error and a JSON-decode failure as a decode error. -/
theorem C7_load_missing_file_is_empty :
    JSONFile.Load .absent = .ok [] ∧
    JSONFile.Load .empty = .ok [] ∧
    (∀ m, ∃ e, JSONFile.Load (.unreadable m) = .error (.io e)) ∧
    (∀ m, ∃ e, JSONFile.Load (.corrupt m) = .error (.decode e)) :=
  ⟨rfl, rfl, fun m => ⟨"failed to read file: " ++ m, rfl⟩,
    fun m => ⟨"failed to unmarshal JSON: " ++ m, rfl⟩⟩

/-- C8: for every collection (hence for 0, 1, and more than 100 records),
Save followed by Load on the same store returns exactly the saved
collection, on the file-backed store and on the in-memory store alike; in
particular the two agree as keyed sets of records. -/
theorem C8_save_load_roundtrip :
    ∀ (ts : List Task) (fd : FileData) (s : List Task),
      JSONFile.Load (JSONFile.Save ts fd).1 = .ok ts ∧
      InMemory.Load (InMemory.Save ts s).1 = .ok ts :=
  fun _ _ _ => ⟨rfl, rfl⟩

/-- C9: the wrapper Save clears the entire pending buffer before
delegating to the underlying store, unconditionally: even when the
underlying save fails the pending writes are discarded, and the underlying
outcome is returned as is. -/
theorem C9_save_discards_pending {σ : Type} (M : StoreOps σ) (ts : List Task)
    (cs : ConcurrentStorage σ) :
    (CS.Save M ts cs).1.unsavedTasks = [] ∧
    (CS.Save M ts cs).1.storage = (M.save ts cs.storage).1 ∧
    (CS.Save M ts cs).2 = (M.save ts cs.storage).2 :=
  ⟨rfl, rfl, rfl⟩

/-- C10: while auto-save is enabled, the wrapper Update succeeds for every
id (it never reports not-found), ignores the id argument entirely, skips
validation, and upserts the record into the pending buffer keyed by the
record's own ID. -/
theorem C10_update_queues_without_checks {σ : Type} (M : StoreOps σ) (id : String)
    (t : Task) (cs : ConcurrentStorage σ) (h : cs.autoSaveEnabled = true) :
    CS.Update M id t cs = ({ cs with unsavedTasks := upsert cs.unsavedTasks t }, .ok ()) ∧
    (∀ id', CS.Update M id' t cs = CS.Update M id t cs) ∧
    lookupById (CS.Update M id t cs).1.unsavedTasks t.ID = some t := by
  refine ⟨?_, ?_, ?_⟩
  · simp [CS.Update, CS.QueueTaskForSave, h]
  · intro id'
    simp [CS.Update, CS.QueueTaskForSave, h]
  · simp [CS.Update, CS.QueueTaskForSave, h, lookupById_upsert]

/-- Witness for C10: a record failing validation, under an id present
neither in the underlying store nor in the buffer, is still accepted and
queued under its own ID. -/
theorem C10_witness :
    csEnabled.autoSaveEnabled = true ∧
    tBad.Validate = some "task title cannot be empty" ∧
    CS.Update inMemOps "ghost" tBad csEnabled =
      ({ csEnabled with unsavedTasks := upsert csEnabled.unsavedTasks tBad }, .ok ()) ∧
    lookupById (CS.Update inMemOps "ghost" tBad csEnabled).1.unsavedTasks tBad.ID = some tBad :=
  ⟨by decide, by decide,
    (C10_update_queues_without_checks inMemOps "ghost" tBad csEnabled (by decide)).1,
    (C10_update_queues_without_checks inMemOps "ghost" tBad csEnabled (by decide)).2.2⟩

/-- A valid replacement record carrying a different ID than the slot it
updates, to exercise the ID-forcing behaviour of Update. -/
def tNew : Task where
  ID := "zz"
  Title := "Gamma"
  Description := "replacement"
  priority := .medium
  DueDate := 0
  Completed := true
  CreatedAt := 9
  UpdatedAt := 10
  Tags := []

/-- A valid replacement record whose UpdatedAt equals the one already
stored for the same ID. -/
def tSame : Task where
  ID := "a1"
  Title := "Alpha2"
  Description := "resubmission"
  priority := .high
  DueDate := 0
  Completed := false
  CreatedAt := 1
  UpdatedAt := 2
  Tags := []

/-- C4: on the in-memory store and on the file-backed store alike,
Update(id, task) fails with a validation error on bad fields, fails with a
not-found error when no record carries id, and on success stores the input
record with the original CreatedAt preserved and the ID forced to the id
argument (whatever ID the input carried), leaves every other id untouched,
and the change is visible to a subsequent Load. -/
theorem C4_update_contract :
    (∀ id t (s : List Task) m, t.Validate = some m →
       InMemory.Update id t s = (s, .error (.validation m))) ∧
    (∀ id t (s : List Task), t.Validate = none → lookupById s id = none →
       InMemory.Update id t s = (s, .error (.notFound id))) ∧
    (∀ id t (s : List Task) old, t.Validate = none → lookupById s id = some old →
       ∃ s', InMemory.Update id t s = (s', .ok ()) ∧
         lookupById s' id = some { t with CreatedAt := old.CreatedAt, ID := id } ∧
         (∀ i, i ≠ id → lookupById s' i = lookupById s i) ∧
         InMemory.Load s' = .ok s') ∧
    (∀ fd s id t m, JSONFile.Load fd = .ok s → t.Validate = some m →
       JSONFile.Update id t fd = (fd, .error (.validation m))) ∧
    (∀ fd s id t, JSONFile.Load fd = .ok s → t.Validate = none → lookupById s id = none →
       JSONFile.Update id t fd = (fd, .error (.notFound id))) ∧
    (∀ fd s id t old, JSONFile.Load fd = .ok s → t.Validate = none → lookupById s id = some old →
       ∃ s', JSONFile.Update id t fd = (.stored s', .ok ()) ∧
         JSONFile.Load (.stored s') = .ok s' ∧
         lookupById s' id = some { t with CreatedAt := old.CreatedAt, ID := id } ∧
         (∀ i, i ≠ id → lookupById s' i = lookupById s i)) := by
  refine ⟨?_, ?_, ?_, ?_, ?_, ?_⟩
  · intro id t s m hv
    simp [InMemory.Update, hv]
  · intro id t s hv hl
    simp [InMemory.Update, hv, (updateList_none_iff id t s).mpr hl]
  · intro id t s old hv hl
    rcases updateList_some id t hl with ⟨s', hup, hlook, hframe⟩
    exact ⟨s', by simp [InMemory.Update, hv, hup], hlook, hframe, rfl⟩
  · intro fd s id t m hload hv
    simp [JSONFile.Update, hload, hv]
  · intro fd s id t hload hv hl
    simp [JSONFile.Update, hload, hv, (updateList_none_iff id t s).mpr hl]
  · intro fd s id t old hload hv hl
    rcases updateList_some id t hl with ⟨s', hup, hlook, hframe⟩
    exact ⟨s', by simp [JSONFile.Update, hload, hv, hup, JSONFile.Save], rfl, hlook, hframe⟩

/-- Witness for C4: concrete invalid, missing-id and successful updates on
both stores; the successful one forces the stored ID back to a1 even
though the input carries ID zz. -/
theorem C4_witness :
    (tBad.Validate = some "task title cannot be empty" ∧
      InMemory.Update "a1" tBad [tA, tB] =
        ([tA, tB], .error (.validation "task title cannot be empty"))) ∧
    (tNew.Validate = none ∧ lookupById [tA, tB] "ghost" = none ∧
      InMemory.Update "ghost" tNew [tA, tB] = ([tA, tB], .error (.notFound "ghost"))) ∧
    (lookupById [tA, tB] "a1" = some tA ∧
      ∃ s', InMemory.Update "a1" tNew [tA, tB] = (s', .ok ()) ∧
        lookupById s' "a1" = some { tNew with CreatedAt := tA.CreatedAt, ID := "a1" } ∧
        (∀ i, i ≠ "a1" → lookupById s' i = lookupById [tA, tB] i) ∧
        InMemory.Load s' = .ok s') ∧
    (JSONFile.Load (.stored [tA, tB]) = .ok [tA, tB] ∧
      ∃ s', JSONFile.Update "a1" tNew (.stored [tA, tB]) = (.stored s', .ok ()) ∧
        JSONFile.Load (.stored s') = .ok s' ∧
        lookupById s' "a1" = some { tNew with CreatedAt := tA.CreatedAt, ID := "a1" } ∧
        (∀ i, i ≠ "a1" → lookupById s' i = lookupById [tA, tB] i)) :=
  ⟨⟨by decide, C4_update_contract.1 "a1" tBad [tA, tB] _ (by decide)⟩,
    ⟨by decide, by decide,
      C4_update_contract.2.1 "ghost" tNew [tA, tB] (by decide) (by decide)⟩,
    ⟨by decide,
      C4_update_contract.2.2.1 "a1" tNew [tA, tB] tA (by decide) (by decide)⟩,
    ⟨by decide,
      C4_update_contract.2.2.2.2.2 (.stored [tA, tB]) [tA, tB] "a1" tNew tA rfl
        (by decide) (by decide)⟩⟩

/-- Counterexample to C5 as stated: resubmitting a record with an
unchanged UpdatedAt is a successful store Update, yet the stored UpdatedAt
is not strictly greater than before — the store persists the UpdatedAt the
caller supplies and never bumps it itself. -/
theorem C5_counterexample :
    (InMemory.Update "a1" tSame [tA]).2 = .ok () ∧
    lookupById (InMemory.Update "a1" tSame [tA]).1 "a1" =
      some { tSame with CreatedAt := tA.CreatedAt, ID := "a1" } ∧
    ¬ tA.UpdatedAt < ({ tSame with CreatedAt := tA.CreatedAt, ID := "a1" } : Task).UpdatedAt := by
  decide

/-- C5 amended: after a successful Update(id, task) the stored UpdatedAt
equals the UpdatedAt of the input record — the store does not bump it — so
it strictly increases exactly when the caller supplies a strictly greater
one, as Task.Update does by stamping the record with the current time. -/
theorem C5_amended_updatedAt :
    (∀ id t (s : List Task) old, t.Validate = none → lookupById s id = some old →
       ∃ s' u, InMemory.Update id t s = (s', .ok ()) ∧ lookupById s' id = some u ∧
         u.UpdatedAt = t.UpdatedAt ∧
         (old.UpdatedAt < t.UpdatedAt → old.UpdatedAt < u.UpdatedAt)) ∧
    (∀ fd s id t old, JSONFile.Load fd = .ok s → t.Validate = none →
       lookupById s id = some old →
       ∃ s' u, JSONFile.Update id t fd = (.stored s', .ok ()) ∧ lookupById s' id = some u ∧
         u.UpdatedAt = t.UpdatedAt ∧
         (old.UpdatedAt < t.UpdatedAt → old.UpdatedAt < u.UpdatedAt)) ∧
    (∀ t title desc p due now, ((Task.update t title desc p due now).1).UpdatedAt = now) := by
  refine ⟨?_, ?_, ?_⟩
  · intro id t s old hv hl
    rcases updateList_some id t hl with ⟨s', hup, hlook, _⟩
    refine ⟨s', { t with CreatedAt := old.CreatedAt, ID := id },
      by simp [InMemory.Update, hv, hup], hlook, rfl, fun h => h⟩
  · intro fd s id t old hload hv hl
    rcases updateList_some id t hl with ⟨s', hup, hlook, _⟩
    refine ⟨s', { t with CreatedAt := old.CreatedAt, ID := id },
      by simp [JSONFile.Update, hload, hv, hup, JSONFile.Save], hlook, rfl, fun h => h⟩
  · intro t title desc p due now
    rfl

/-- Witness for the amended C5: updating a1 with a record stamped at a
strictly later instant strictly increases the stored UpdatedAt. -/
theorem C5_witness :
    (tNew.Validate = none ∧ lookupById [tA, tB] "a1" = some tA ∧
      ∃ s' u, InMemory.Update "a1" tNew [tA, tB] = (s', .ok ()) ∧
        lookupById s' "a1" = some u ∧ u.UpdatedAt = tNew.UpdatedAt ∧
        (tA.UpdatedAt < tNew.UpdatedAt → tA.UpdatedAt < u.UpdatedAt)) ∧
    ((Task.update tA "Alpha" "first" .high 0 5).1).UpdatedAt = 5 :=
  ⟨⟨by decide, by decide,
      C5_amended_updatedAt.1 "a1" tNew [tA, tB] tA (by decide) (by decide)⟩,
    C5_amended_updatedAt.2.2 tA "Alpha" "first" .high 0 5⟩

/-- C1: the flush follows exactly the specified algorithm. Empty pending
buffer: no-op. Load succeeds: the saved collection is the loaded one
merged with the pending records keyed by ID with pending winning every
conflict (whole-record), and the buffer is cleared exactly when that save
succeeds. Load fails: only the pending records are saved and the buffer is
cleared whatever the save returns. -/
theorem C1_flush_algorithm {σ : Type} (M : StoreOps σ) (cs : ConcurrentStorage σ) :
    (cs.unsavedTasks = [] → CS.saveUnsavedTasks M cs = cs) ∧
    (∀ current, cs.unsavedTasks ≠ [] → M.load cs.storage = .ok current →
      (∀ i, lookupById (mergeTasks current cs.unsavedTasks) i =
        match lookupLast cs.unsavedTasks i with
        | some t => some t
        | none => lookupLast current i) ∧
      CS.saveUnsavedTasks M cs =
        { cs with
            storage := (M.save (mergeTasks current cs.unsavedTasks) cs.storage).1,
            unsavedTasks :=
              match (M.save (mergeTasks current cs.unsavedTasks) cs.storage).2 with
              | .ok _ => []
              | .error _ => cs.unsavedTasks }) ∧
    (∀ e, cs.unsavedTasks ≠ [] → M.load cs.storage = .error e →
      CS.saveUnsavedTasks M cs =
        { cs with storage := (M.save cs.unsavedTasks cs.storage).1, unsavedTasks := [] }) := by
  refine ⟨?_, ?_, ?_⟩
  · intro h
    simp [CS.saveUnsavedTasks, h]
  · intro current hne hload
    refine ⟨fun i => lookupById_mergeTasks current cs.unsavedTasks i, ?_⟩
    cases hcs : cs.unsavedTasks with
    | nil => exact absurd hcs hne
    | cons a l =>
      simp only [CS.saveUnsavedTasks, hcs, hload]
      cases hsave : (M.save (mergeTasks current (a :: l)) cs.storage).2 with
      | ok u => simp [hsave]
      | error e => simp [hsave]
  · intro e hne hload
    cases hcs : cs.unsavedTasks with
    | nil => exact absurd hcs hne
    | cons a l =>
      simp [CS.saveUnsavedTasks, hcs, hload]

/-- Wrapper around a flaky underlying store whose load and save both
succeed, with one pending record. -/
def csFlushOk : ConcurrentStorage FlakyStore where
  storage := { tasks := [tA], loadFails := false, saveFails := false }
  autoSaveEnabled := true
  stopClosed := false
  workerRunning := true
  panicked := false
  unsavedTasks := [tB]

/-- Wrapper around a flaky underlying store whose load fails, with one
pending record. -/
def csFlushLoadFail : ConcurrentStorage FlakyStore where
  storage := { tasks := [tA], loadFails := true, saveFails := false }
  autoSaveEnabled := true
  stopClosed := false
  workerRunning := true
  panicked := false
  unsavedTasks := [tB]

/-- Witness for C1: the merged-save branch on a healthy store and the
degraded branch on a store whose load fails. -/
theorem C1_witness :
    (csFlushOk.unsavedTasks ≠ [] ∧
      flakyOps.load csFlushOk.storage = .ok [tA] ∧
      CS.saveUnsavedTasks flakyOps csFlushOk =
        { csFlushOk with
            storage := (flakyOps.save (mergeTasks [tA] csFlushOk.unsavedTasks) csFlushOk.storage).1,
            unsavedTasks :=
              match (flakyOps.save (mergeTasks [tA] csFlushOk.unsavedTasks) csFlushOk.storage).2 with
              | .ok _ => []
              | .error _ => csFlushOk.unsavedTasks }) ∧
    (csFlushLoadFail.unsavedTasks ≠ [] ∧
      flakyOps.load csFlushLoadFail.storage = .error (.io "read failed") ∧
      CS.saveUnsavedTasks flakyOps csFlushLoadFail =
        { csFlushLoadFail with
            storage := (flakyOps.save csFlushLoadFail.unsavedTasks csFlushLoadFail.storage).1,
            unsavedTasks := [] }) :=
  ⟨⟨by decide, by decide,
      ((C1_flush_algorithm flakyOps csFlushOk).2.1 [tA] (by decide) (by decide)).2⟩,
    ⟨by decide, by decide,
      (C1_flush_algorithm flakyOps csFlushLoadFail).2.2 (.io "read failed")
        (by decide) (by decide)⟩⟩

/-- C3: while coalescing is enabled (and the pending buffer, as the
wrapper maintains, has no duplicate IDs), Load returns the underlying
collection overlaid with the pending buffer — any pending ID resolves to
the pending record, any other ID to an underlying record — GetByID returns
the pending record whenever one matches, and after any sequence of
Add/Update calls and before any flush, GetByID returns the last record
queued for that ID whatever the underlying store holds
(read-your-own-writes). -/
theorem C3_read_your_own_writes {σ : Type} (M : StoreOps σ) (cs : ConcurrentStorage σ)
    (henabled : cs.autoSaveEnabled = true) (hnodup : IdsNodup cs.unsavedTasks) :
    (∀ current, M.load cs.storage = .ok current →
      ∃ out, CS.Load M cs = .ok out ∧
        (∀ i t, lookupById cs.unsavedTasks i = some t → lookupById out i = some t) ∧
        (∀ i u, lookupById cs.unsavedTasks i = none → lookupById out i = some u →
          u ∈ current)) ∧
    (∀ i t, lookupById cs.unsavedTasks i = some t → CS.GetByID M i cs = .ok t) ∧
    (∀ ops i t, lookupLast (writesOf ops) i = some t →
      CS.GetByID M i (applyOps M cs ops) = .ok t) := by
  refine ⟨?_, ?_, ?_⟩
  · intro current hload
    cases hcs : cs.unsavedTasks with
    | nil =>
      refine ⟨current, by simp [CS.Load, hload, hcs], ?_, ?_⟩
      · intro i t h
        simp [lookupById] at h
      · intro i u _ h
        exact (lookupById_mem h).1
    | cons a l =>
      have hnodup2 : IdsNodup (a :: l) := by rw [← hcs]; exact hnodup
      refine ⟨mergeTasks current (a :: l), by simp [CS.Load, hload, hcs], ?_, ?_⟩
      · intro i t h
        have hlast : lookupLast (a :: l) i = some t := by
          rw [← lookupById_eq_lookupLast hnodup2]; exact h
        rw [lookupById_mergeTasks, hlast]
      · intro i u h hu
        have hlast : lookupLast (a :: l) i = none := by
          rw [← lookupById_eq_lookupLast hnodup2]; exact h
        rw [lookupById_mergeTasks, hlast] at hu
        exact (lookupLast_mem hu).1
  · intro i t h
    simp [CS.GetByID, h]
  · intro ops i t h
    rw [applyOps_enabled M ops cs henabled]
    simp only [CS.GetByID, lookupById_foldl_upsert, h]

/-- Witness for C3: over an in-memory store holding only tA, an Add of tB
then an Update queuing tNew (under an unrelated id argument) make GetByID
return tNew for its own ID zz, before any flush. -/
theorem C3_witness :
    csEnabled.autoSaveEnabled = true ∧
    IdsNodup csEnabled.unsavedTasks ∧
    lookupLast (writesOf [WOp.add tB, WOp.upd "ignored" tNew]) "zz" = some tNew ∧
    CS.GetByID inMemOps "zz"
      (applyOps inMemOps csEnabled [WOp.add tB, WOp.upd "ignored" tNew]) = .ok tNew :=
  ⟨by decide, by decide, by decide,
    (C3_read_your_own_writes inMemOps csEnabled (by decide) (by decide)).2.2
      [WOp.add tB, WOp.upd "ignored" tNew] "zz" tNew (by decide)⟩

/-- Wrapper state right after the call sequence enable, Add tB, disable:
DisableAutoSave has returned but the worker has not yet taken its stop
step. -/
def csAfterDisable : ConcurrentStorage (List Task) :=
  CS.DisableAutoSave (CS.Add inMemOps tB csEnabled).1

/-- Counterexample to C6 as stated: right after DisableAutoSave returns,
the record added while auto-save was enabled is still in the pending
buffer and the underlying store does not hold it — DisableAutoSave itself
performs no flush, synchronous or otherwise; it only closes the stop
channel, and the final flush happens later in the background worker. -/
theorem C6_counterexample :
    csAfterDisable.autoSaveEnabled = false ∧
    csAfterDisable.unsavedTasks = [tB] ∧
    csAfterDisable.storage = [tA] := by
  decide

/-- C6 amended: EnableAutoSave takes Disabled to Enabled and is a no-op
while already enabled; DisableAutoSave takes Enabled to Disabled by
signalling the worker (closing the stop channel) and is a no-op while
already disabled; the one final flush of the pending buffer is performed
asynchronously by the worker when it observes the closed stop channel,
before the worker goroutine terminates — not inside DisableAutoSave. -/
theorem C6_amended_state_machine {σ : Type} (M : StoreOps σ) (cs : ConcurrentStorage σ) :
    (cs.autoSaveEnabled = false → CS.EnableAutoSave cs =
      { cs with autoSaveEnabled := true, workerRunning := true }) ∧
    (cs.autoSaveEnabled = true → CS.EnableAutoSave cs = cs) ∧
    (cs.autoSaveEnabled = false → CS.DisableAutoSave cs = cs) ∧
    (cs.autoSaveEnabled = true → cs.stopClosed = false →
      CS.DisableAutoSave cs = { cs with autoSaveEnabled := false, stopClosed := true }) ∧
    (cs.workerRunning = true → cs.stopClosed = true →
      CS.workerStopStep M cs = { CS.saveUnsavedTasks M cs with workerRunning := false }) := by
  refine ⟨?_, ?_, ?_, ?_, ?_⟩
  · intro h; simp [CS.EnableAutoSave, h]
  · intro h; simp [CS.EnableAutoSave, h]
  · intro h; simp [CS.DisableAutoSave, h]
  · intro h h2; simp [CS.DisableAutoSave, h, h2]
  · intro h h2; simp [CS.workerStopStep, h, h2]

/-- Witness for the amended C6: every transition at a concrete state,
ending with the worker stop step that flushes the record left pending by
the counterexample state. -/
theorem C6_witness :
    ((newConcurrentStorage [tA]).autoSaveEnabled = false ∧
      CS.EnableAutoSave (newConcurrentStorage [tA]) =
        { newConcurrentStorage [tA] with autoSaveEnabled := true, workerRunning := true }) ∧
    (csEnabled.autoSaveEnabled = true ∧ CS.EnableAutoSave csEnabled = csEnabled) ∧
    ((newConcurrentStorage [tA]).autoSaveEnabled = false ∧
      CS.DisableAutoSave (newConcurrentStorage [tA]) = newConcurrentStorage [tA]) ∧
    (csEnabled.autoSaveEnabled = true ∧ csEnabled.stopClosed = false ∧
      CS.DisableAutoSave csEnabled =
        { csEnabled with autoSaveEnabled := false, stopClosed := true }) ∧
    (csAfterDisable.workerRunning = true ∧ csAfterDisable.stopClosed = true ∧
      CS.workerStopStep inMemOps csAfterDisable =
        { CS.saveUnsavedTasks inMemOps csAfterDisable with workerRunning := false }) :=
  ⟨⟨by decide,
      (C6_amended_state_machine inMemOps (newConcurrentStorage [tA])).1 (by decide)⟩,
    ⟨by decide, (C6_amended_state_machine inMemOps csEnabled).2.1 (by decide)⟩,
    ⟨by decide,
      (C6_amended_state_machine inMemOps (newConcurrentStorage [tA])).2.2.1 (by decide)⟩,
    ⟨by decide, by decide,
      (C6_amended_state_machine inMemOps csEnabled).2.2.2.1 (by decide) (by decide)⟩,
    ⟨by decide, by decide,
      (C6_amended_state_machine inMemOps csAfterDisable).2.2.2.2 (by decide) (by decide)⟩⟩

set_option maxRecDepth 10000

/-- C2: exporting the two-record collection with formats json, csv, bogus
writes base.json and base.csv with exactly the JSON and CSV renderings of
the snapshot, never writes base.bogus, and returns one aggregated error
mentioning bogus. In general an unknown format is a per-format error
collected into the combined error rather than a fatal pre-check: every
format whose renderer succeeds is still exported. -/
theorem C2_concurrent_export :
    ((concurrentExport (.ok [tA, tB]) 9 ["json", "csv", "bogus"] "base").1 =
        [("base.json", renderJSON [tA, tB]), ("base.csv", renderCSV [tA, tB])] ∧
      (∀ p ∈ (concurrentExport (.ok [tA, tB]) 9 ["json", "csv", "bogus"] "base").1,
        p.1 ≠ "base.bogus") ∧
      (∃ msg, (concurrentExport (.ok [tA, tB]) 9 ["json", "csv", "bogus"] "base").2 =
          some msg ∧ mentionsStr "bogus" msg = true)) ∧
    (∀ (tasks : List Task) (now : Nat) (formats : List String) (base f c : String),
      f ∈ formats → exportFormat tasks now f = .ok c →
      (base ++ "." ++ f, c) ∈ (concurrentExport (.ok tasks) now formats base).1) ∧
    (∀ (tasks : List Task) (now : Nat) (formats : List String) (base f e : String),
      f ∈ formats → exportFormat tasks now f = .error e →
      (f ++ ": " ++ e) ∈ formats.filterMap (fun g =>
          match exportFormat tasks now g with
          | .error err => some (g ++ ": " ++ err)
          | .ok _ => none) ∧
      (concurrentExport (.ok tasks) now formats base).2 =
        some ("export errors: " ++ String.intercalate "; " (formats.filterMap (fun g =>
          match exportFormat tasks now g with
          | .error err => some (g ++ ": " ++ err)
          | .ok _ => none)))) := by
  refine ⟨⟨by decide, by decide,
    ⟨"export errors: bogus: unsupported format: bogus", by decide, by decide⟩⟩, ?_, ?_⟩
  · intro tasks now formats base f c hf hok
    cases formats with
    | nil => simp at hf
    | cons g gs =>
      simp only [concurrentExport]
      exact List.mem_filterMap.mpr ⟨f, hf, by simp [hok]⟩
  · intro tasks now formats base f e hf herr
    cases formats with
    | nil => simp at hf
    | cons g gs =>
      have hmem : (f ++ ": " ++ e) ∈ (g :: gs).filterMap (fun x =>
          match exportFormat tasks now x with
          | .error err => some (x ++ ": " ++ err)
          | .ok _ => none) :=
        List.mem_filterMap.mpr ⟨f, hf, by simp [herr]⟩
      refine ⟨hmem, ?_⟩
      simp only [concurrentExport]
      cases hE : (g :: gs).filterMap (fun x =>
          match exportFormat tasks now x with
          | .error err => some (x ++ ": " ++ err)
          | .ok _ => none) with
      | nil =>
        rw [hE] at hmem
        simp at hmem
      | cons x xs =>
        rfl

/-- Witness for C2: the csv format, requested together with the invalid
bogus format, is still exported under its filename. -/
theorem C2_witness :
    ("csv" ∈ ["json", "csv", "bogus"]) ∧
    exportFormat [tA, tB] 9 "csv" = .ok (renderCSV [tA, tB]) ∧
    ("base" ++ "." ++ "csv", renderCSV [tA, tB]) ∈
      (concurrentExport (.ok [tA, tB]) 9 ["json", "csv", "bogus"] "base").1 :=
  ⟨by decide, by decide,
    C2_concurrent_export.2.1 [tA, tB] 9 ["json", "csv", "bogus"] "base" "csv"
      (renderCSV [tA, tB]) (by decide) (by decide)⟩

end GoFun
